import Mathlib

/-!
Shallow embedding of the statistical-analysis engine of the repository
(`excel_pro_master.py`, class `StatisticalAnalyzer`, plus the input length
check of `report.py`), together with theorems settling the frozen claims.

Modelling conventions:
- Python floats are modelled as real numbers (`ℝ`); parts of the engine
  that involve no transcendental function are modelled generically over a
  `LinearOrderedField` so that they are executable at `ℚ`.
- scipy/numpy transcendental library functions (`stats.t.ppf`,
  `stats.chi2.ppf`, `norm.cdf`) are abstract function parameters, since
  the source calls them as black boxes.
- IEEE non-finite results (NaN / infinity, produced by dividing by a zero
  standard deviation) are modelled by `Option`: `none` stands for a
  non-finite value, and any NumPy comparison against a non-finite value
  is `false`, as in IEEE semantics (`zScoresAbs`, `sharlieCount`).
-/

section GenericDefs

variable {α : Type} [LinearOrderedField α]

/-- Embeds `np.mean(data)`: the arithmetic mean (line 113). -/
def npMean (data : List α) : α := data.sum / (data.length : α)

/-- Embeds `np.var(data, ddof=1)` (line 116): the corrected sample variance,
sum of squared deviations divided by `n - 1`. -/
def npVarSample (data : List α) : α :=
  (data.map (fun x => (x - npMean data) ^ 2)).sum / ((data.length : α) - 1)

/-- Embeds `np.var(data)` (line 117): the population variance, divided by `n`. -/
def npVarPop (data : List α) : α :=
  (data.map (fun x => (x - npMean data) ^ 2)).sum / (data.length : α)

/-- Embeds `np.min(data)` (line 118); `0` on the empty list, on which the
source library call would fail. -/
def npMin : List α → α
  | [] => 0
  | [x] => x
  | x :: y :: t => min x (npMin (y :: t))

/-- Embeds `np.max(data)` (line 119); `0` on the empty list, on which the
source library call would fail. -/
def npMax : List α → α
  | [] => 0
  | [x] => x
  | x :: y :: t => max x (npMax (y :: t))

/-- Embeds `np.sort(data)`: ascending order. -/
def npSort (data : List α) : List α := data.insertionSort (· ≤ ·)

/-- Embeds `np.argmin(l)`: the first index at which the minimum is attained. -/
def npArgmin (l : List α) : ℕ := l.findIdx (fun x => decide (x = npMin l))

/-- Embeds `np.argmax(l)`: the first index at which the maximum is attained. -/
def npArgmax (l : List α) : ℕ := l.findIdx (fun x => decide (x = npMax l))

/-- Embeds `np.percentile(data, p)` with the default linear-interpolation
method (lines 121-123): position `p/100 * (n-1)`, linear interpolation
between the two neighbouring order statistics. -/
def npPercentile [FloorRing α] (data : List α) (p : α) : α :=
  let s := npSort data
  let pos : α := p / 100 * ((data.length : α) - 1)
  let i : ℕ := (Int.floor pos).toNat
  let frac : α := pos - (i : α)
  s.getD i 0 + frac * (s.getD (i + 1) 0 - s.getD i 0)

/-- Embeds `scipy.stats.hmean(x)` as used on line 131: the harmonic mean
`len(x) / sum(1/x)` of the positive entries (the source filters
`data[data > 0]` before the call). -/
def hmeanAll (data : List α) : α :=
  let pos := data.filter (fun x => decide (0 < x))
  (pos.length : α) / (pos.map (fun x => 1 / x)).sum

/-- Embeds the z-score vector `np.abs((data - mean) / std)` (lines 324, 344,
373) with IEEE semantics: when `std = 0` every entry is non-finite
(NaN), modelled as `none`. -/
def zScoresAbs (data : List α) (m s : α) : List (Option α) :=
  data.map (fun x => if s = 0 then none else some (|x - m| / s))

/-- Embeds `np.sum(z_scores > 3)` of the Sharlie criterion (line 345):
counts z-scores strictly greater than 3; a comparison against a
non-finite value is `false`, as in IEEE arithmetic. -/
def sharlieCount (data : List α) (m s : α) : ℕ :=
  (zScoresAbs data m s).countP (fun oz =>
    match oz with
    | none => false
    | some z => decide (3 < z))

/-- Embeds `np.where(p(data))[0]`: the indices at which `p` holds. -/
def whereIdx (data : List α) (p : α → Bool) : List ℕ :=
  (data.enum.filter (fun q => p q.2)).map (fun q => q.1)

/-- Embeds adding list entry `src` into entry `dst` and removing entry `src`
(the bin-folding operations of lines 203-216). -/
def foldAt (l : List α) (src dst : ℕ) : List α :=
  (l.set dst (l.getD dst 0 + l.getD src 0)).eraseIdx src

/-- Embeds one iteration of the bin-merging loop body (lines 201-216): the
bin with the minimum expected count is folded into its right neighbour
when it is the first bin, and into its left neighbour otherwise; the
observed counts are folded the same way. -/
def mergeOnce (p : List α × List α) : List α × List α :=
  let idx := npArgmin p.2
  let dst := if idx = 0 then 1 else idx - 1
  (foldAt p.1 idx dst, foldAt p.2 idx dst)

/-- Embeds the guard of the bin-merging loop (line 200):
`np.any(expected < 5) and len(expected) > 2`. -/
def mergeCondB (exp : List α) : Bool :=
  exp.any (fun e => decide (e < 5)) && decide (2 < exp.length)

/-- Fuel-indexed unfolding of the bin-merging `while` loop; the fuel
`exp.length` used by `mergeBins` is enough, because every iteration
removes exactly one bin (proved below). -/
def mergeLoopFuel : ℕ → List α × List α → List α × List α
  | 0, p => p
  | Nat.succ f, p => if mergeCondB p.2 then mergeLoopFuel f (mergeOnce p) else p

/-- Embeds the whole bin-merging loop of lines 200-216 on the pair
(observed, expected). -/
def mergeBins (obs exp : List α) : List α × List α :=
  mergeLoopFuel exp.length (obs, exp)

/-- Embeds the bin edges produced by `np.histogram(data, bins=k)`
(line 188): `k+1` equally spaced edges from `lo` to `hi`. -/
def binEdges (lo hi : α) (k : ℕ) : List α :=
  (List.range (k + 1)).map (fun (i : ℕ) => lo + (i : α) * (hi - lo) / (k : α))

end GenericDefs

/-- Embeds lines 191-196: expected frequency of each histogram bin,
`n * (norm.cdf(edge[i+1], mean, std) - norm.cdf(edge[i], mean, std))`;
`normCdf` is the abstract normal CDF with location and scale arguments. -/
def expectedFreqs (normCdf : ℝ → ℝ → ℝ → ℝ) (m s : ℝ) (edges : List ℝ)
    (n : ℕ) : List ℝ :=
  (edges.zip edges.tail).map (fun p => (n : ℝ) * (normCdf p.2 m s - normCdf p.1 m s))

/-- Embeds `np.std(data, ddof=1)` (line 114): the square root of the
corrected sample variance. -/
noncomputable def stdSample (data : List ℝ) : ℝ := Real.sqrt (npVarSample data)

/-- Embeds `scipy.stats.gmean(x)`: the geometric mean
`exp(mean(log(x)))`. -/
noncomputable def gmeanR (l : List ℝ) : ℝ :=
  Real.exp ((l.map Real.log).sum / (l.length : ℝ))

/-- Embeds Python's `int(x)` conversion: truncation toward zero. -/
noncomputable def pyTrunc (x : ℝ) : ℤ := if 0 ≤ x then ⌊x⌋ else ⌈x⌉

/-- Embeds lines 185-186: the chi-square test's initial histogram bin count,
`k = int(1 + 3.322 * log10(n))` followed by `k = max(5, min(k, 20))`.
Python's `int` truncates; it does NOT round up. -/
noncomputable def sturgesBins (n : ℕ) : ℤ :=
  max 5 (min (pyTrunc (1 + 3.322 * Real.logb 10 (n : ℝ))) 20)

/-- Modelled from the spec's words (not from the source): bin count via
Sturges' rule with `round_up` (ceiling), `k = round_up(1 + 3.322*log10(n))`,
clamped to [5, 20]. Used only to compare the spec's claim with the code's
`sturgesBins`. -/
noncomputable def sturgesBinsSpecCeil (n : ℕ) : ℤ :=
  max 5 (min ⌈1 + 3.322 * Real.logb 10 (n : ℝ)⌉ 20)

/-- The record computed by `StatisticalAnalyzer._calculate_all`
(lines 109-153). Field names follow the keys of `self.results`. -/
structure AnalyzerResults where
  n : ℕ
  mean : ℝ
  std : ℝ
  std_pop : ℝ
  variance : ℝ
  variance_pop : ℝ
  min : ℝ
  max : ℝ
  range : ℝ
  median : ℝ
  q1 : ℝ
  q3 : ℝ
  skewness : ℝ
  kurtosis : ℝ
  excess_kurtosis : ℝ
  mean_harmonic : Option ℝ
  mean_geometric : Option ℝ
  se : ℝ
  cv : ℝ
  ci_mean_lower : ℝ
  ci_mean_upper : ℝ
  ci_std_lower : ℝ
  ci_std_upper : ℝ

/-- Embeds `StatisticalAnalyzer.__init__` together with `_calculate_all`
(lines 103-153). The constructor performs NO validation whatsoever: it is a
total function of the input list. `tppf p df` stands for
`scipy.stats.t.ppf(p, df)` and `chi2ppf p df` for
`scipy.stats.chi2.ppf(p, df)`, both abstract. Skewness and kurtosis follow
`scipy.stats.skew` / `scipy.stats.kurtosis(fisher=True)` with biased
central moments. -/
noncomputable def calculateAll (tppf chi2ppf : ℝ → ℤ → ℝ)
    (data : List ℝ) : AnalyzerResults :=
  let n := data.length
  let mean := npMean data
  let variance := npVarSample data
  let std := Real.sqrt variance
  let m2 := npVarPop data
  let m3 := (data.map (fun x => (x - mean) ^ 3)).sum / (n : ℝ)
  let m4 := (data.map (fun x => (x - mean) ^ 4)).sum / (n : ℝ)
  let se := std / Real.sqrt (n : ℝ)
  let alpha := 1 - 0.95
  let t_critical := tppf (1 - alpha / 2) ((n : ℤ) - 1)
  let chi2_lower := chi2ppf (1 - alpha / 2) ((n : ℤ) - 1)
  let chi2_upper := chi2ppf (alpha / 2) ((n : ℤ) - 1)
  { n := n
    mean := mean
    std := std
    std_pop := Real.sqrt m2
    variance := variance
    variance_pop := m2
    min := npMin data
    max := npMax data
    range := npMax data - npMin data
    median := npPercentile data 50
    q1 := npPercentile data 25
    q3 := npPercentile data 75
    skewness := m3 / Real.sqrt (m2 ^ 3)
    kurtosis := m4 / m2 ^ 2 - 3
    excess_kurtosis := m4 / m2 ^ 2 - 3
    mean_harmonic := if ∀ x ∈ data, 0 < x then some (hmeanAll data) else none
    mean_geometric :=
      if ∀ x ∈ data, 0 < x then
        some (gmeanR (data.filter (fun x => decide (0 < x))))
      else none
    se := se
    cv := if mean ≠ 0 then std / mean * 100 else 0
    ci_mean_lower := mean - t_critical * se
    ci_mean_upper := mean + t_critical * se
    ci_std_lower := Real.sqrt (((n : ℝ) - 1) * variance / chi2_lower)
    ci_std_upper := Real.sqrt (((n : ℝ) - 1) * variance / chi2_upper) }

/-- Result record of the Grubbs criterion (lines 322-339). -/
structure GrubbsRes where
  max_z : ℝ
  critical : ℝ
  outlier_index : Option ℕ
  outlier_value : Option ℝ
  has_outliers : Prop

/-- Embeds the Grubbs branch of `detect_outliers` (lines 322-339):
z-scores `|x - mean| / std`, their maximum and first arg-max, the critical
value `((n-1)*t) / sqrt(n*(n-2+t^2))` with
`t = tppf(1 - 0.05/(2n), n-2)`, and a single flagged index when the
maximum z-score exceeds the critical value. Division is the total real
division, which agrees with the source for `std ≠ 0`; the `std = 0`
NaN pathway is modelled by `zScoresAbs`. -/
noncomputable def grubbsRes (tppf : ℝ → ℤ → ℝ) (data : List ℝ)
    (m s : ℝ) : GrubbsRes :=
  let n := data.length
  let z := data.map (fun x => |x - m| / s)
  let mz := npMax z
  let mi := npArgmax z
  let t := tppf (1 - 0.05 / (2 * (n : ℝ))) ((n : ℤ) - 2)
  let g := ((n : ℝ) - 1) * t / Real.sqrt ((n : ℝ) * ((n : ℝ) - 2 + t ^ 2))
  { max_z := mz
    critical := g
    outlier_index := if g < mz then some mi else none
    outlier_value := if g < mz then some (data.getD mi 0) else none
    has_outliers := g < mz }

/-- Embeds the size-dependent critical value table of the Smirnov test
(lines 268-275). -/
noncomputable def smirnovCritical (n : ℕ) : ℝ :=
  if n ≤ 20 then 0.294
  else if n ≤ 30 then 0.242
  else if n ≤ 40 then 0.210
  else 1.36 / Real.sqrt (n : ℝ)

/-- Result record of the Smirnov test (lines 277-282). -/
structure SmirnovRes where
  statistic : ℝ
  critical_value : ℝ
  is_normal : Prop

/-- Embeds the manual Smirnov test (lines 244-282): sort, standardize with
the sample mean/std, build the lists `d_plus i = (i+1)/n - phi(z_i)` and
`d_minus i = phi(z_i) - i/n`, take `D = max(max(d_plus), max(d_minus))`,
and judge normal when `D <= d_critical`. `phi` is the abstract standard
normal CDF `norm.cdf`. -/
noncomputable def smirnovRes (phi : ℝ → ℝ) (data : List ℝ)
    (m s : ℝ) : SmirnovRes :=
  let n := data.length
  let zs := (npSort data).map (fun x => (x - m) / s)
  let dplus := (List.range n).map
    (fun (i : ℕ) => ((i : ℝ) + 1) / (n : ℝ) - phi (zs.getD i 0))
  let dminus := (List.range n).map
    (fun (i : ℕ) => phi (zs.getD i 0) - (i : ℝ) / (n : ℝ))
  let D := max (npMax dplus) (npMax dminus)
  { statistic := D
    critical_value := smirnovCritical n
    is_normal := D ≤ smirnovCritical n }

/-- Result record of the IQR criterion (lines 293-305). -/
structure IqrRes where
  indices : List ℕ
  values : List ℝ
  lower_fence : ℝ
  upper_fence : ℝ
  count : ℕ

/-- Embeds the IQR branch of `detect_outliers` (lines 293-305). -/
noncomputable def iqrRes (data : List ℝ) (q1 q3 : ℝ) : IqrRes :=
  let iqr := q3 - q1
  let lo := q1 - 1.5 * iqr
  let hi := q3 + 1.5 * iqr
  let idx := whereIdx data (fun x => decide (x < lo ∨ hi < x))
  { indices := idx
    values := data.filter (fun x => decide (x < lo ∨ hi < x))
    lower_fence := lo
    upper_fence := hi
    count := idx.length }

/-- Result record of the 3-sigma (Wright) criterion (lines 307-319). -/
structure Sigma3Res where
  indices : List ℕ
  values : List ℝ
  lower_limit : ℝ
  upper_limit : ℝ
  count : ℕ

/-- Embeds the 3-sigma branch of `detect_outliers` (lines 307-319): flags
the values strictly outside `[mean - 3*std, mean + 3*std]`. -/
noncomputable def sigma3Res (data : List ℝ) (m s : ℝ) : Sigma3Res :=
  let lo := m - 3 * s
  let hi := m + 3 * s
  let idx := whereIdx data (fun x => decide (x < lo ∨ hi < x))
  { indices := idx
    values := data.filter (fun x => decide (x < lo ∨ hi < x))
    lower_limit := lo
    upper_limit := hi
    count := idx.length }

/-- Result record of the Sharlie criterion (lines 342-351). -/
structure SharlieRes where
  outlier_count : ℕ
  threshold : ℝ
  has_outliers : Prop

/-- Embeds the Sharlie branch of `detect_outliers` (lines 342-351). -/
noncomputable def sharlieRes (data : List ℝ) (m s : ℝ) : SharlieRes :=
  { outlier_count := sharlieCount data m s
    threshold := 3
    has_outliers := 0 < sharlieCount data m s }

/-- Result record of the Irwin criterion (lines 353-369). -/
structure IrwinRes where
  max_lambda : ℝ
  critical_value : ℝ
  outlier_index : Option ℕ
  has_outliers : Prop

/-- Embeds the Irwin branch of `detect_outliers` (lines 353-369):
consecutive gaps of the sorted sample divided by the std, maximum compared
against the fixed critical value 1.7. -/
noncomputable def irwinRes (data : List ℝ) (s : ℝ) : IrwinRes :=
  let sorted := npSort data
  let diffs := (sorted.zip sorted.tail).map (fun p => p.2 - p.1)
  let lambdas := diffs.map (fun d => d / s)
  { max_lambda := npMax lambdas
    critical_value := 1.7
    outlier_index :=
      if 1.7 < npMax lambdas then some (npArgmax lambdas) else none
    has_outliers := 1.7 < npMax lambdas }

/-- Result record of the Chauvenet criterion (lines 371-385). -/
structure ChauvenetRes where
  outlier_indices : List ℕ
  outlier_values : List ℝ
  count : ℕ

/-- Embeds the Chauvenet branch of `detect_outliers` (lines 371-385):
expected count `n * 2 * (1 - phi(|z|))` per point, flag where it is
below 0.5. -/
noncomputable def chauvenetRes (phi : ℝ → ℝ) (data : List ℝ) (m s : ℝ) : ChauvenetRes :=
  let nexp := data.map (fun x => (data.length : ℝ) * (2 * (1 - phi (|x - m| / s))))
  let idx := whereIdx nexp (fun v => decide (v < 0.5))
  { outlier_indices := idx
    outlier_values :=
      ((data.zip nexp).filter (fun p => decide (p.2 < 0.5))).map (fun p => p.1)
    count := idx.length }

/-- The mapping returned by `detect_outliers`: one optional entry per
method; an entry is present exactly when the branch guard
`method == '<name>' or method == 'all'` holds. -/
structure OutlierResults where
  iqr : Option IqrRes
  sigma3 : Option Sigma3Res
  grubbs : Option GrubbsRes
  sharlie : Option SharlieRes
  irwin : Option IrwinRes
  chauvenet : Option ChauvenetRes

/-- Embeds `StatisticalAnalyzer.detect_outliers(method)` (lines 288-387).
The arguments `m s q1 q3` stand for `self.results['mean']`,
`['std']`, `['q1']`, `['q3']`. -/
noncomputable def detect_outliers (phi : ℝ → ℝ) (tppf : ℝ → ℤ → ℝ)
    (data : List ℝ) (m s q1 q3 : ℝ) (method : String) : OutlierResults :=
  { iqr :=
      if method = "iqr" ∨ method = "all" then some (iqrRes data q1 q3) else none
    sigma3 :=
      if method = "3sigma" ∨ method = "all" then some (sigma3Res data m s) else none
    grubbs :=
      if method = "grubbs" ∨ method = "all" then some (grubbsRes tppf data m s) else none
    sharlie :=
      if method = "sharlie" ∨ method = "all" then some (sharlieRes data m s) else none
    irwin :=
      if method = "irwin" ∨ method = "all" then some (irwinRes data s) else none
    chauvenet :=
      if method = "chauvenet" ∨ method = "all" then some (chauvenetRes phi data m s) else none }

/-- The default value of the `method` parameter in the source signature
`def detect_outliers(self, method='iqr')` (line 288). -/
def defaultMethod : String := "iqr"

/-- A call of `detect_outliers` with no method selector supplied: Python
fills in the default `method='iqr'`. -/
noncomputable def detect_outliers_default (phi : ℝ → ℝ) (tppf : ℝ → ℤ → ℝ)
    (data : List ℝ) (m s q1 q3 : ℝ) : OutlierResults :=
  detect_outliers phi tppf data m s q1 q3 defaultMethod

/-- Embeds the only input-size validation in the repository: lines 88-89 of
`report.py` (`parse_input`), which raise `ValueError` (not a dedicated
error class) when fewer than 5 values were parsed. The error is modelled
as `Except.error`. -/
def parse_input_lengthCheck (values : List ℝ) : Except String (List ℝ) :=
  if values.length < 5 then Except.error "insufficient data" else Except.ok values

/-! ## Helper lemmas -/

section MaxMinLemmas

variable {α : Type} [LinearOrderedField α]

theorem npMax_nil : npMax ([] : List α) = 0 := rfl

theorem npMax_singleton (a : α) : npMax [a] = a := rfl

theorem npMax_cons_cons (a b : α) (t : List α) :
    npMax (a :: b :: t) = max a (npMax (b :: t)) := rfl

theorem npMin_singleton (a : α) : npMin [a] = a := rfl

theorem npMin_cons_cons (a b : α) (t : List α) :
    npMin (a :: b :: t) = min a (npMin (b :: t)) := rfl

theorem npMax_mem : ∀ (l : List α), l ≠ [] → npMax l ∈ l := by
  intro l
  induction l with
  | nil => intro h; exact absurd rfl h
  | cons x xs ih =>
    intro _
    cases xs with
    | nil => simp [npMax_singleton]
    | cons y t =>
      rw [npMax_cons_cons]
      rcases max_choice x (npMax (y :: t)) with h1 | h1
      · rw [h1]; exact List.mem_cons_self x _
      · rw [h1]; exact List.mem_cons_of_mem x (ih (by simp))

theorem le_npMax : ∀ (l : List α) (x : α), x ∈ l → x ≤ npMax l := by
  intro l
  induction l with
  | nil => intro x hx; simp at hx
  | cons a xs ih =>
    intro x hx
    cases xs with
    | nil =>
      rw [npMax_singleton]
      rcases List.mem_singleton.mp hx with rfl
      exact le_refl _
    | cons b t =>
      rw [npMax_cons_cons]
      rcases List.mem_cons.mp hx with rfl | hmem
      · exact le_max_left _ _
      · exact le_trans (ih x hmem) (le_max_right _ _)

theorem npMin_mem : ∀ (l : List α), l ≠ [] → npMin l ∈ l := by
  intro l
  induction l with
  | nil => intro h; exact absurd rfl h
  | cons x xs ih =>
    intro _
    cases xs with
    | nil => simp [npMin_singleton]
    | cons y t =>
      rw [npMin_cons_cons]
      rcases min_choice x (npMin (y :: t)) with h1 | h1
      · rw [h1]; exact List.mem_cons_self x _
      · rw [h1]; exact List.mem_cons_of_mem x (ih (by simp))

theorem npMax_zipWith_max :
    ∀ (l1 l2 : List α), l1.length = l2.length →
      npMax (List.zipWith max l1 l2) = max (npMax l1) (npMax l2) := by
  intro l1
  induction l1 with
  | nil =>
    intro l2 h
    have h2 : l2 = [] := List.length_eq_zero.mp h.symm
    subst h2
    simp [npMax_nil]
  | cons x xs ih =>
    intro l2 h
    cases l2 with
    | nil => simp at h
    | cons y ys =>
      cases xs with
      | nil =>
        have h2 : ys = [] := by
          have := h.symm
          simp at this
          exact this
        subst h2
        simp [npMax_singleton]
      | cons x2 t2 =>
        cases ys with
        | nil => simp at h
        | cons y2 s2 =>
          have hlen : (x2 :: t2).length = (y2 :: s2).length := by simpa using h
          have ihh := ih (y2 :: s2) hlen
          show npMax (max x y :: List.zipWith max (x2 :: t2) (y2 :: s2))
              = max (npMax (x :: x2 :: t2)) (npMax (y :: y2 :: s2))
          rw [show List.zipWith max (x2 :: t2) (y2 :: s2)
              = max x2 y2 :: List.zipWith max t2 s2 from rfl]
          rw [npMax_cons_cons]
          rw [show (max x2 y2 :: List.zipWith max t2 s2)
              = List.zipWith max (x2 :: t2) (y2 :: s2) from rfl]
          rw [ihh, npMax_cons_cons, npMax_cons_cons]
          exact max_max_max_comm x y (npMax (x2 :: t2)) (npMax (y2 :: s2))

theorem npArgmax_lt_length (l : List α) (h : l ≠ []) : npArgmax l < l.length :=
  List.findIdx_lt_length_of_exists ⟨npMax l, npMax_mem l h, by simp⟩

theorem npArgmin_lt_length (l : List α) (h : l ≠ []) : npArgmin l < l.length :=
  List.findIdx_lt_length_of_exists ⟨npMin l, npMin_mem l h, by simp⟩

theorem getD_npArgmax (l : List α) (h : l ≠ []) :
    l.getD (npArgmax l) 0 = npMax l := by
  have hlt : npArgmax l < l.length := npArgmax_lt_length l h
  have hp := @List.findIdx_getElem _ (fun x => decide (x = npMax l)) l hlt
  rw [List.getD_eq_getElem l 0 hlt]
  exact of_decide_eq_true hp

end MaxMinLemmas

section CountLemmas

variable {α : Type} [LinearOrderedField α]

theorem countP_enumFrom {β : Type} (q : β → Bool) :
    ∀ (i : ℕ) (l : List β),
      (List.enumFrom i l).countP (fun p => q p.2) = l.countP q := by
  intro i l
  induction l generalizing i with
  | nil => rfl
  | cons x xs ih => simp [List.enumFrom, List.countP_cons, ih]

theorem whereIdx_length (data : List α) (p : α → Bool) :
    (whereIdx data p).length = data.countP p := by
  rw [whereIdx, List.length_map, ← List.countP_eq_length_filter]
  exact countP_enumFrom p 0 data

end CountLemmas

section MergeLemmas

variable {α : Type} [LinearOrderedField α]

theorem foldAt_length (l : List α) (src dst : ℕ) (h : src < l.length) :
    (foldAt l src dst).length = l.length - 1 := by
  simp [foldAt, List.length_eraseIdx, List.length_set, h]

theorem mergeCondB_spec {e : List α} (h : mergeCondB e = true) :
    (∃ x ∈ e, x < 5) ∧ 2 < e.length := by
  simpa [mergeCondB] using h

theorem mergeOnce_sndLength (p : List α × List α) (he : p.2 ≠ []) :
    ((mergeOnce p).2).length = p.2.length - 1 := by
  have hlt : npArgmin p.2 < p.2.length := npArgmin_lt_length p.2 he
  show (foldAt p.2 (npArgmin p.2) _).length = p.2.length - 1
  exact foldAt_length _ _ _ hlt

theorem mergeLoopFuel_iterate :
    ∀ (fuel : ℕ) (p : List α × List α),
      ∃ m, m ≤ fuel ∧ mergeLoopFuel fuel p = mergeOnce^[m] p := by
  intro fuel
  induction fuel with
  | zero => intro p; exact ⟨0, le_refl 0, rfl⟩
  | succ f ih =>
    intro p
    by_cases h : mergeCondB p.2
    · obtain ⟨m, hm, he⟩ := ih (mergeOnce p)
      refine ⟨m + 1, by omega, ?_⟩
      rw [show mergeLoopFuel (f + 1) p
          = if mergeCondB p.2 then mergeLoopFuel f (mergeOnce p) else p from rfl]
      rw [if_pos h, he, Function.iterate_succ_apply]
    · refine ⟨0, by omega, ?_⟩
      rw [show mergeLoopFuel (f + 1) p
          = if mergeCondB p.2 then mergeLoopFuel f (mergeOnce p) else p from rfl]
      rw [if_neg h]
      rfl

theorem mergeLoopFuel_exit :
    ∀ (fuel : ℕ) (p : List α × List α), p.2.length ≤ fuel →
      mergeCondB ((mergeLoopFuel fuel p).2) = false := by
  intro fuel
  induction fuel with
  | zero =>
    intro p hp
    have h0 : p.2.length = 0 := Nat.le_zero.mp hp
    show mergeCondB p.2 = false
    simp [mergeCondB, h0]
  | succ f ih =>
    intro p hp
    rw [show mergeLoopFuel (f + 1) p
        = if mergeCondB p.2 then mergeLoopFuel f (mergeOnce p) else p from rfl]
    by_cases h : mergeCondB p.2
    · rw [if_pos h]
      have h2 : 2 < p.2.length := (mergeCondB_spec h).2
      have hne : p.2 ≠ [] := by
        intro he
        rw [he] at h2
        simp at h2
      have hlen := mergeOnce_sndLength p hne
      exact ih (mergeOnce p) (by omega)
    · rw [if_neg h]
      exact Bool.not_eq_true _ |>.mp h

end MergeLemmas

theorem five_le_sturgesBins (n : ℕ) : 5 ≤ sturgesBins n := le_max_left _ _

theorem sturgesBins_le_twenty (n : ℕ) : sturgesBins n ≤ 20 := by
  rw [sturgesBins]
  exact max_le (by norm_num) (min_le_right _ _)

theorem sturgesBins_toNat_le (n : ℕ) : (sturgesBins n).toNat ≤ 20 := by
  have h := sturgesBins_le_twenty n
  exact Int.toNat_le.mpr (by exact_mod_cast h)

theorem stdSample_const5 : stdSample [5, 5, 5, 5, 5] = 0 := by
  have h : npVarSample ([5, 5, 5, 5, 5] : List ℝ) = 0 := by
    norm_num [npVarSample, npMean]
  rw [stdSample, h, Real.sqrt_zero]

/-! ## Claim theorems -/

/-- Claim C1, corrected. The original claim says constructing the analysis
from a sequence with fewer than 5 values, or with non-finite values, fails
with `InvalidInputError` and produces no partial report. No
`InvalidInputError` class exists anywhere in the repository and
`StatisticalAnalyzer.__init__` performs no validation at all: it computes
the full result record for every input list (in particular for a sample of
size 3). The only length check in the repository is in `parse_input` of
`report.py` (lines 88-89), which raises a plain `ValueError` when fewer
than 5 values were parsed from a file, and no code anywhere checks for
non-finite values. -/
theorem claim_C1_no_engine_validation (tppf chi2ppf : ℝ → ℤ → ℝ)
    (values : List ℝ) :
    (values.length < 5 →
      parse_input_lengthCheck values = Except.error "insufficient data")
    ∧ (5 ≤ values.length → parse_input_lengthCheck values = Except.ok values)
    ∧ (calculateAll tppf chi2ppf values).n = values.length
    ∧ (calculateAll tppf chi2ppf values).mean = npMean values
    ∧ (calculateAll tppf chi2ppf values).variance = npVarSample values := by
  refine ⟨?_, ?_, rfl, rfl, rfl⟩
  · intro h
    rw [parse_input_lengthCheck, if_pos h]
  · intro h
    rw [parse_input_lengthCheck, if_neg (not_lt.mpr h)]

/-- Witness for claim C1's theorem: the size-3 sample `[1,2,3]` is rejected
by the parse-layer length check but analyzed without error by the
engine. -/
theorem claim_C1_witness :
    parse_input_lengthCheck [1, 2, 3] = Except.error "insufficient data"
    ∧ (calculateAll (fun _ _ => 0) (fun _ _ => 0) [1, 2, 3]).n = 3 :=
  ⟨(claim_C1_no_engine_validation (fun _ _ => 0) (fun _ _ => 0) [1, 2, 3]).1
      (by decide),
    (claim_C1_no_engine_validation (fun _ _ => 0) (fun _ _ => 0) [1, 2, 3]).2.2.1⟩

/-- Counterexample to claim C1 as stated: a sample of size 3 does NOT raise
any error; `StatisticalAnalyzer([1,2,3])` succeeds and produces a complete
report with `n = 3`, `mean = 2`, `variance = 1`. -/
theorem claim_C1_counterexample :
    (calculateAll (fun _ _ => 0) (fun _ _ => 0) [1, 2, 3]).n = 3
    ∧ (calculateAll (fun _ _ => 0) (fun _ _ => 0) [1, 2, 3]).mean = 2
    ∧ (calculateAll (fun _ _ => 0) (fun _ _ => 0) [1, 2, 3]).variance = 1 := by
  refine ⟨rfl, ?_, ?_⟩
  · show npMean [(1 : ℝ), 2, 3] = 2
    norm_num [npMean]
  · show npVarSample [(1 : ℝ), 2, 3] = 1
    norm_num [npVarSample, npMean]

/-- Claim C2, corrected. The original claim says the engine raises
`DegenerateSampleError` (or marks every std-dependent field unavailable)
on a constant sample. No `DegenerateSampleError` class exists anywhere in
the repository and nothing checks for a zero standard deviation: when the
sample std is 0 the z-score vector `np.abs((data - mean)/std)` consists
entirely of non-finite values (NaN, modelled `none`), which flow silently
into the downstream criteria — the Sharlie criterion counts `NaN > 3` as
false and reports 0 outliers — and the coefficient of variation evaluates
to 0 (in the `mean != 0` branch it is `(0/mean)*100`), so no field is
marked unavailable and no error is raised. -/
theorem claim_C2_nan_zscores (tppf chi2ppf : ℝ → ℤ → ℝ) (data : List ℝ)
    (hstd : stdSample data = 0) :
    zScoresAbs data (npMean data) (stdSample data)
      = List.replicate data.length none
    ∧ sharlieCount data (npMean data) (stdSample data) = 0
    ∧ (calculateAll tppf chi2ppf data).cv = 0 := by
  have hz : zScoresAbs data (npMean data) (stdSample data)
      = List.replicate data.length none := by
    rw [hstd, zScoresAbs]
    rw [List.eq_replicate]
    constructor
    · exact List.length_map _ _
    · intro b hb
      rcases List.mem_map.mp hb with ⟨x, _, hxb⟩
      rw [← hxb, if_pos rfl]
  refine ⟨hz, ?_, ?_⟩
  · rw [sharlieCount, hz]
    rw [List.countP_eq_zero]
    intro a ha
    rcases List.eq_of_mem_replicate ha with rfl
    simp
  · show (if npMean data ≠ 0
        then Real.sqrt (npVarSample data) / npMean data * 100 else 0) = 0
    have h0 : Real.sqrt (npVarSample data) = 0 := hstd
    rw [h0]
    by_cases hm : npMean data ≠ 0
    · rw [if_pos hm, zero_div, zero_mul]
    · rw [if_neg hm]

/-- Witness for claim C2's theorem at the constant sample `[5,5,5,5,5]`,
whose sample standard deviation is 0. -/
theorem claim_C2_witness :
    zScoresAbs [5, 5, 5, 5, 5] (npMean [5, 5, 5, 5, 5])
      (stdSample [5, 5, 5, 5, 5]) = List.replicate 5 none
    ∧ sharlieCount [5, 5, 5, 5, 5] (npMean [5, 5, 5, 5, 5])
      (stdSample [5, 5, 5, 5, 5]) = 0
    ∧ (calculateAll (fun _ _ => 0) (fun _ _ => 0) [5, 5, 5, 5, 5]).cv = 0 :=
  claim_C2_nan_zscores (fun _ _ => 0) (fun _ _ => 0) [5, 5, 5, 5, 5]
    stdSample_const5

/-- Counterexample to claim C2 as stated: on the constant sample
`[5,5,5,5,5]` the code raises nothing; the std is 0, the z-score vector is
entirely NaN (`none`), the Sharlie criterion silently reports 0 outliers
from those NaNs, and the coefficient of variation is computed as 0 — NaN
flows into the z-score vector and no std-dependent field is marked
unavailable. -/
theorem claim_C2_counterexample :
    stdSample [5, 5, 5, 5, 5] = 0
    ∧ zScoresAbs [5, 5, 5, 5, 5] 5 (stdSample [5, 5, 5, 5, 5])
      = [none, none, none, none, none]
    ∧ sharlieCount [5, 5, 5, 5, 5] 5 (stdSample [5, 5, 5, 5, 5]) = 0 := by
  refine ⟨stdSample_const5, ?_, ?_⟩
  · rw [stdSample_const5]
    simp [zScoresAbs]
  · rw [stdSample_const5]
    simp [sharlieCount, zScoresAbs, List.countP_cons]

/-- Claim C3, corrected. The original claim says the initial bin count is
`round_up(1 + 3.322*log10(n))` (ceiling). The source (line 185) uses
Python's `int(...)`, which truncates toward zero — for the nonnegative
argument arising from every `n ≥ 1` this is the FLOOR, not the ceiling —
and then clamps to [5, 20] (line 186). -/
theorem claim_C3_bin_count_truncates (n : ℕ) (hn : 1 ≤ n) :
    sturgesBins n = max 5 (min ⌊1 + 3.322 * Real.logb 10 (n : ℝ)⌋ 20)
    ∧ 5 ≤ sturgesBins n ∧ sturgesBins n ≤ 20 := by
  refine ⟨?_, five_le_sturgesBins n, sturgesBins_le_twenty n⟩
  have hlog : 0 ≤ Real.logb 10 (n : ℝ) :=
    Real.logb_nonneg (by norm_num) (by exact_mod_cast hn)
  have harg : 0 ≤ 1 + 3.322 * Real.logb 10 (n : ℝ) := by nlinarith
  rw [sturgesBins, pyTrunc, if_pos harg]

/-- Witness for claim C3's theorem at `n = 7`. -/
theorem claim_C3_witness :
    sturgesBins 7 = max 5 (min ⌊1 + 3.322 * Real.logb 10 ((7 : ℕ) : ℝ)⌋ 20)
    ∧ 5 ≤ sturgesBins 7 ∧ sturgesBins 7 ≤ 20 :=
  claim_C3_bin_count_truncates 7 (by decide)

/-- Counterexample to claim C3 as stated: at `n = 1000`,
`1 + 3.322*log10(1000) = 10.966`; the code truncates to 10 bins while the
claimed ceiling rule would give 11. -/
theorem claim_C3_counterexample :
    sturgesBins 1000 = 10 ∧ sturgesBinsSpecCeil 1000 = 11
    ∧ sturgesBins 1000 ≠ sturgesBinsSpecCeil 1000 := by
  have hcast : ((1000 : ℕ) : ℝ) = 10 ^ (3 : ℕ) := by norm_num
  have hlog : Real.logb 10 ((1000 : ℕ) : ℝ) = 3 := by
    rw [hcast, Real.logb_pow, Real.logb_self_eq_one (by norm_num)]
    norm_num
  have harg : 1 + 3.322 * Real.logb 10 ((1000 : ℕ) : ℝ) = 10.966 := by
    rw [hlog]; norm_num
  have hfloor : ⌊(10.966 : ℝ)⌋ = 10 := by
    apply Int.floor_eq_iff.mpr
    constructor <;> norm_num
  have hceil : ⌈(10.966 : ℝ)⌉ = 11 := by
    apply Int.ceil_eq_iff.mpr
    constructor <;> norm_num
  have h1 : sturgesBins 1000 = 10 := by
    rw [sturgesBins, pyTrunc, harg, if_pos (by norm_num), hfloor]
    decide
  have h2 : sturgesBinsSpecCeil 1000 = 11 := by
    rw [sturgesBinsSpecCeil, harg, hceil]
    decide
  exact ⟨h1, h2, by rw [h1, h2]; decide⟩

/-- Claim C4, corrected. The original claim says a default invocation of
`detect_outliers` runs all methods. The source signature (line 288) is
`def detect_outliers(self, method='iqr')`: when no method selector is
supplied only the IQR branch runs and the result mapping contains the IQR
entry alone; all six entries are present exactly when `method='all'` is
passed (which is what the report generator does explicitly at its call
site, line 787). -/
theorem claim_C4_default_iqr_only (phi : ℝ → ℝ) (tppf : ℝ → ℤ → ℝ)
    (data : List ℝ) (m s q1 q3 : ℝ) :
    (detect_outliers_default phi tppf data m s q1 q3).iqr
      = some (iqrRes data q1 q3)
    ∧ (detect_outliers_default phi tppf data m s q1 q3).sigma3 = none
    ∧ (detect_outliers_default phi tppf data m s q1 q3).grubbs = none
    ∧ (detect_outliers_default phi tppf data m s q1 q3).sharlie = none
    ∧ (detect_outliers_default phi tppf data m s q1 q3).irwin = none
    ∧ (detect_outliers_default phi tppf data m s q1 q3).chauvenet = none
    ∧ (detect_outliers phi tppf data m s q1 q3 "all").iqr.isSome
    ∧ (detect_outliers phi tppf data m s q1 q3 "all").sigma3.isSome
    ∧ (detect_outliers phi tppf data m s q1 q3 "all").grubbs.isSome
    ∧ (detect_outliers phi tppf data m s q1 q3 "all").sharlie.isSome
    ∧ (detect_outliers phi tppf data m s q1 q3 "all").irwin.isSome
    ∧ (detect_outliers phi tppf data m s q1 q3 "all").chauvenet.isSome := by
  have d1 : ("iqr" : String) ≠ "3sigma" := by decide
  have d2 : ("iqr" : String) ≠ "grubbs" := by decide
  have d3 : ("iqr" : String) ≠ "sharlie" := by decide
  have d4 : ("iqr" : String) ≠ "irwin" := by decide
  have d5 : ("iqr" : String) ≠ "chauvenet" := by decide
  have d6 : ("iqr" : String) ≠ "all" := by decide
  simp [detect_outliers_default, defaultMethod, detect_outliers,
    d1, d2, d3, d4, d5, d6]

/-- Counterexample to claim C4 as stated: a default invocation (no method
selector, Python default `method='iqr'`) yields a mapping whose Grubbs
entry is absent, so the mapping does not contain an entry for every
method; only the IQR entry is present. -/
theorem claim_C4_counterexample :
    (detect_outliers_default (fun _ => 0) (fun _ _ => 0)
      [1, 2, 3, 4, 5] 0 1 0 1).grubbs = none
    ∧ (detect_outliers_default (fun _ => 0) (fun _ _ => 0)
      [1, 2, 3, 4, 5] 0 1 0 1).iqr.isSome := by
  have d2 : ("iqr" : String) ≠ "grubbs" := by decide
  have d6 : ("iqr" : String) ≠ "all" := by decide
  simp [detect_outliers_default, defaultMethod, detect_outliers, d2, d6]

/-- Claim C5, confirmed. For a sample with nonzero standard deviation the
Grubbs branch computes the statistic `max |x - mean|/std` over the sample
(it is an attained maximum: a member of the z-score list bounding every
member), the critical value `((n-1)*t)/sqrt(n*(n-2+t^2))` with
`t = t.ppf(1 - 0.05/(2n), n-2)`, and flags at most one point — the first
index attaining the maximal z-score — exactly when the statistic exceeds
the critical value. -/
theorem claim_C5_grubbs (tppf : ℝ → ℤ → ℝ) (data : List ℝ) (m s : ℝ)
    (hne : data ≠ []) (hs : 0 < s) :
    (grubbsRes tppf data m s).max_z ∈ data.map (fun x => |x - m| / s)
    ∧ (∀ v ∈ data.map (fun x => |x - m| / s), v ≤ (grubbsRes tppf data m s).max_z)
    ∧ (grubbsRes tppf data m s).critical =
        ((data.length : ℝ) - 1)
            * tppf (1 - 0.05 / (2 * (data.length : ℝ))) ((data.length : ℤ) - 2)
          / Real.sqrt ((data.length : ℝ) * ((data.length : ℝ) - 2
            + tppf (1 - 0.05 / (2 * (data.length : ℝ))) ((data.length : ℤ) - 2) ^ 2))
    ∧ (¬ (grubbsRes tppf data m s).critical < (grubbsRes tppf data m s).max_z →
        (grubbsRes tppf data m s).outlier_index = none
        ∧ (grubbsRes tppf data m s).outlier_value = none)
    ∧ ((grubbsRes tppf data m s).critical < (grubbsRes tppf data m s).max_z →
        (grubbsRes tppf data m s).outlier_index
            = some (npArgmax (data.map (fun x => |x - m| / s)))
        ∧ (data.map (fun x => |x - m| / s)).getD
            (npArgmax (data.map (fun x => |x - m| / s))) 0
            = (grubbsRes tppf data m s).max_z)
    ∧ (∀ i j : ℕ, (grubbsRes tppf data m s).outlier_index = some i →
        (grubbsRes tppf data m s).outlier_index = some j → i = j) := by
  have hmne : data.map (fun x => |x - m| / s) ≠ [] := by
    intro h
    exact hne (List.map_eq_nil.mp h)
  refine ⟨?_, ?_, rfl, ?_, ?_, ?_⟩
  · exact npMax_mem _ hmne
  · intro v hv
    exact le_npMax _ v hv
  · intro h
    exact ⟨if_neg h, if_neg h⟩
  · intro h
    exact ⟨if_pos h, getD_npArgmax _ hmne⟩
  · intro i j hi hj
    rw [hi] at hj
    exact Option.some.inj hj

/-- Witness for claim C5's theorem: the sample `[1, 2]` with mean 0 and
std 1 is nonempty and has positive std, and the Grubbs statistic is an
attained maximum of the z-score list there. -/
theorem claim_C5_witness :
    (grubbsRes (fun _ _ => 0) [1, 2] 0 1).max_z
      ∈ ([1, 2] : List ℝ).map (fun x => |x - 0| / 1)
    ∧ ∀ v ∈ ([1, 2] : List ℝ).map (fun x => |x - 0| / 1),
        v ≤ (grubbsRes (fun _ _ => 0) [1, 2] 0 1).max_z :=
  ⟨(claim_C5_grubbs (fun _ _ => 0) [1, 2] 0 1 (by simp) zero_lt_one).1,
    (claim_C5_grubbs (fun _ _ => 0) [1, 2] 0 1 (by simp) zero_lt_one).2.1⟩

/-- Claim C6, confirmed. The Smirnov statistic `D` is the overall maximum,
over sorted order statistics `i`, of both deviations
`(i+1)/n - phi(z_i)` and `phi(z_i) - i/n` (with `z` the standardized
sorted data); the critical value is 0.294 for `n ≤ 20`, 0.242 for
`20 < n ≤ 30`, 0.210 for `30 < n ≤ 40` and `1.36/sqrt(n)` otherwise; and
the sample is judged normal exactly when `D` does not exceed the critical
value (the source comparison on line 280 is `D <= d_critical`). -/
theorem claim_C6_smirnov (phi : ℝ → ℝ) (data : List ℝ) (m s : ℝ)
    (hne : data ≠ []) :
    (smirnovRes phi data m s).statistic
      = npMax (List.zipWith max
          ((List.range data.length).map (fun (i : ℕ) =>
            ((i : ℝ) + 1) / (data.length : ℝ)
              - phi (((npSort data).map (fun x => (x - m) / s)).getD i 0)))
          ((List.range data.length).map (fun (i : ℕ) =>
            phi (((npSort data).map (fun x => (x - m) / s)).getD i 0)
              - (i : ℝ) / (data.length : ℝ))))
    ∧ (data.length ≤ 20 → (smirnovRes phi data m s).critical_value = 0.294)
    ∧ (20 < data.length → data.length ≤ 30 →
        (smirnovRes phi data m s).critical_value = 0.242)
    ∧ (30 < data.length → data.length ≤ 40 →
        (smirnovRes phi data m s).critical_value = 0.210)
    ∧ (40 < data.length →
        (smirnovRes phi data m s).critical_value
          = 1.36 / Real.sqrt (data.length : ℝ))
    ∧ ((smirnovRes phi data m s).is_normal ↔
        (smirnovRes phi data m s).statistic
          ≤ (smirnovRes phi data m s).critical_value) := by
  refine ⟨(npMax_zipWith_max _ _ (by simp)).symm, ?_, ?_, ?_, ?_, Iff.rfl⟩
  · intro h
    show smirnovCritical data.length = 0.294
    rw [smirnovCritical, if_pos h]
  · intro h1 h2
    show smirnovCritical data.length = 0.242
    rw [smirnovCritical, if_neg (by omega), if_pos h2]
  · intro h1 h2
    show smirnovCritical data.length = 0.210
    rw [smirnovCritical, if_neg (by omega), if_neg (by omega), if_pos h2]
  · intro h
    show smirnovCritical data.length = 1.36 / Real.sqrt (data.length : ℝ)
    rw [smirnovCritical, if_neg (by omega), if_neg (by omega), if_neg (by omega)]

/-- Witness for claim C6's theorem at the nonempty sample `[1, 2]` with a
constant CDF stub: the statistic equals the overall maximum of both
deviation lists, and `n = 2 ≤ 20` gives critical value 0.294. -/
theorem claim_C6_witness :
    (smirnovRes (fun _ => 0) [1, 2] 0 1).critical_value = 0.294 :=
  (claim_C6_smirnov (fun _ => 0) [1, 2] 0 1 (by simp)).2.1 (by decide)

/-- Claim C7, confirmed. The 95 percent confidence interval for the mean is
`mean ± t.ppf(1 - alpha/2, n-1) * (std/sqrt(n))` with `alpha = 1 - 0.95`
fixed (lines 140-146), and — since the t quantile at probability 0.975 is
nonnegative and `std/sqrt(n) ≥ 0` — the interval always contains the
mean. -/
theorem claim_C7_ci_mean (tppf chi2ppf : ℝ → ℤ → ℝ) (data : List ℝ)
    (ht : 0 ≤ tppf (1 - (1 - 0.95) / 2) ((data.length : ℤ) - 1)) :
    (calculateAll tppf chi2ppf data).ci_mean_lower
      = npMean data - tppf (1 - (1 - 0.95) / 2) ((data.length : ℤ) - 1)
          * (stdSample data / Real.sqrt (data.length : ℝ))
    ∧ (calculateAll tppf chi2ppf data).ci_mean_upper
      = npMean data + tppf (1 - (1 - 0.95) / 2) ((data.length : ℤ) - 1)
          * (stdSample data / Real.sqrt (data.length : ℝ))
    ∧ (calculateAll tppf chi2ppf data).ci_mean_lower
        ≤ (calculateAll tppf chi2ppf data).mean
    ∧ (calculateAll tppf chi2ppf data).mean
        ≤ (calculateAll tppf chi2ppf data).ci_mean_upper := by
  have hse : 0 ≤ stdSample data / Real.sqrt (data.length : ℝ) :=
    div_nonneg (Real.sqrt_nonneg _) (Real.sqrt_nonneg _)
  have hprod : 0 ≤ tppf (1 - (1 - 0.95) / 2) ((data.length : ℤ) - 1)
      * (stdSample data / Real.sqrt (data.length : ℝ)) := mul_nonneg ht hse
  refine ⟨rfl, rfl, ?_, ?_⟩
  · show npMean data - tppf (1 - (1 - 0.95) / 2) ((data.length : ℤ) - 1)
        * (Real.sqrt (npVarSample data) / Real.sqrt (data.length : ℝ))
        ≤ npMean data
    have : 0 ≤ tppf (1 - (1 - 0.95) / 2) ((data.length : ℤ) - 1)
        * (Real.sqrt (npVarSample data) / Real.sqrt (data.length : ℝ)) := hprod
    linarith
  · show npMean data
        ≤ npMean data + tppf (1 - (1 - 0.95) / 2) ((data.length : ℤ) - 1)
          * (Real.sqrt (npVarSample data) / Real.sqrt (data.length : ℝ))
    have : 0 ≤ tppf (1 - (1 - 0.95) / 2) ((data.length : ℤ) - 1)
        * (Real.sqrt (npVarSample data) / Real.sqrt (data.length : ℝ)) := hprod
    linarith

/-- Witness for claim C7's theorem: with the constant-1 quantile stub
(whose value at 0.975 is nonnegative) and the sample `[1, 2, 3]`, the
interval contains the mean. -/
theorem claim_C7_witness :
    (calculateAll (fun _ _ => 1) (fun _ _ => 0) [1, 2, 3]).ci_mean_lower
      ≤ (calculateAll (fun _ _ => 1) (fun _ _ => 0) [1, 2, 3]).mean
    ∧ (calculateAll (fun _ _ => 1) (fun _ _ => 0) [1, 2, 3]).mean
      ≤ (calculateAll (fun _ _ => 1) (fun _ _ => 0) [1, 2, 3]).ci_mean_upper :=
  ⟨(claim_C7_ci_mean (fun _ _ => 1) (fun _ _ => 0) [1, 2, 3] zero_le_one).2.2.1,
    (claim_C7_ci_mean (fun _ _ => 1) (fun _ _ => 0) [1, 2, 3] zero_le_one).2.2.2⟩

/-- Claim C8, confirmed. The harmonic and geometric means are present in
the result record exactly when every value is strictly positive
(lines 131-132); when some value is `≤ 0` both fields are explicitly
`None` — no exception, since the constructor is a total function — while
every other statistic (mean, variance, n, quartiles, ...) is still
computed from the same formulas. -/
theorem claim_C8_positive_only_means (tppf chi2ppf : ℝ → ℤ → ℝ)
    (data : List ℝ) :
    ((calculateAll tppf chi2ppf data).mean_harmonic.isSome
      ↔ ∀ x ∈ data, 0 < x)
    ∧ ((calculateAll tppf chi2ppf data).mean_geometric.isSome
      ↔ ∀ x ∈ data, 0 < x)
    ∧ ((∃ x ∈ data, x ≤ 0) →
        (calculateAll tppf chi2ppf data).mean_harmonic = none
        ∧ (calculateAll tppf chi2ppf data).mean_geometric = none)
    ∧ (calculateAll tppf chi2ppf data).mean = npMean data
    ∧ (calculateAll tppf chi2ppf data).variance = npVarSample data
    ∧ (calculateAll tppf chi2ppf data).n = data.length
    ∧ (calculateAll tppf chi2ppf data).q1 = npPercentile data 25
    ∧ (calculateAll tppf chi2ppf data).q3 = npPercentile data 75 := by
  have hh : (calculateAll tppf chi2ppf data).mean_harmonic
      = if ∀ x ∈ data, 0 < x then some (hmeanAll data) else none := rfl
  have hg : (calculateAll tppf chi2ppf data).mean_geometric
      = if ∀ x ∈ data, 0 < x then
          some (gmeanR (data.filter (fun x => decide (0 < x))))
        else none := rfl
  have hnotall : (∃ x ∈ data, x ≤ 0) → ¬ ∀ x ∈ data, 0 < x := by
    rintro ⟨x, hx, hle⟩ hall
    exact absurd (hall x hx) (not_lt.mpr hle)
  refine ⟨?_, ?_, ?_, rfl, rfl, rfl, rfl, rfl⟩
  · rw [hh]
    by_cases h : ∀ x ∈ data, 0 < x
    · rw [if_pos h]
      simpa using h
    · rw [if_neg h]
      simpa using h
  · rw [hg]
    by_cases h : ∀ x ∈ data, 0 < x
    · rw [if_pos h]
      simpa using h
    · rw [if_neg h]
      simpa using h
  · intro hex
    rw [hh, hg, if_neg (hnotall hex), if_neg (hnotall hex)]
    exact ⟨rfl, rfl⟩

/-- Witness for claim C8's theorem: the sample `[1, -1]` contains the
nonpositive value `-1`, so both the harmonic and the geometric mean are
absent. -/
theorem claim_C8_witness :
    (calculateAll (fun _ _ => 0) (fun _ _ => 0) [1, -1]).mean_harmonic = none
    ∧ (calculateAll (fun _ _ => 0) (fun _ _ => 0) [1, -1]).mean_geometric
      = none :=
  (claim_C8_positive_only_means (fun _ _ => 0) (fun _ _ => 0) [1, -1]).2.2.1
    ⟨-1, List.mem_cons_of_mem 1 (List.mem_cons_self (-1) []),
      neg_nonpos.mpr zero_le_one⟩

/-- Claim C9, confirmed. The chi-square bin-merging loop terminates: every
iteration whose guard holds removes exactly one bin (the one with minimum
expected count is folded into a neighbour), the loop result is a finite
iterate of the one-step fold whose iteration count is bounded by the
initial bin count, the guard `any(expected < 5) and len(expected) > 2`
fails at the loop result, and the initial bin count produced by the
clamped Sturges rule never exceeds 20 (the expected-frequency list over
the `k`-bin histogram edges has exactly `k` entries). -/
theorem claim_C9_merge_terminates (α : Type) [LinearOrderedField α] :
    (∀ (p : List α × List α), mergeCondB p.2 = true →
        ((mergeOnce p).2).length + 1 = p.2.length)
    ∧ (∀ (obs exp : List α), ∃ m, m ≤ exp.length
        ∧ mergeBins obs exp = mergeOnce^[m] (obs, exp))
    ∧ (∀ (obs exp : List α), mergeCondB ((mergeBins obs exp).2) = false)
    ∧ (∀ n : ℕ, (sturgesBins n).toNat ≤ 20)
    ∧ (∀ (normCdf : ℝ → ℝ → ℝ → ℝ) (m s lo hi : ℝ) (k nn : ℕ),
        (expectedFreqs normCdf m s (binEdges lo hi k) nn).length = k) := by
  refine ⟨?_, ?_, ?_, fun n => sturgesBins_toNat_le n, ?_⟩
  · intro p h
    have h2 : 2 < p.2.length := (mergeCondB_spec h).2
    have hne : p.2 ≠ [] := by
      intro he
      rw [he] at h2
      simp at h2
    rw [mergeOnce_sndLength p hne]
    omega
  · intro obs exp
    exact mergeLoopFuel_iterate exp.length (obs, exp)
  · intro obs exp
    exact mergeLoopFuel_exit exp.length (obs, exp) (le_refl _)
  · intro normCdf m s lo hi k nn
    have hlen : (binEdges lo hi k).length = k + 1 := by
      rw [binEdges, List.length_map, List.length_range]
    rw [expectedFreqs, List.length_map, List.length_zip, List.length_tail, hlen]
    omega

/-- Witness for claim C9's theorem, instantiated at `ℚ`: one fold removes
exactly one of the three bins `[1, 6, 6]` (whose guard holds since
`1 < 5` and there are more than 2 bins), the loop result violates the
guard, and the Sturges bin count at `n = 7` is at most 20. -/
theorem claim_C9_witness :
    ((mergeOnce (([0, 0, 0] : List ℚ), ([1, 6, 6] : List ℚ))).2).length + 1 = 3
    ∧ mergeCondB ((mergeBins ([0, 0, 0] : List ℚ) [1, 6, 6]).2) = false
    ∧ (sturgesBins 7).toNat ≤ 20 :=
  ⟨(claim_C9_merge_terminates ℚ).1 ([0, 0, 0], [1, 6, 6]) (by decide),
    (claim_C9_merge_terminates ℚ).2.2.1 [0, 0, 0] [1, 6, 6],
    (claim_C9_merge_terminates ℚ).2.2.2.1 7⟩

/-- Claim C10, confirmed. For positive std, a value has `|x - mean|/std`
strictly greater than 3 exactly when it lies strictly outside
`[mean - 3*std, mean + 3*std]`, so the Sharlie count (line 345) equals the
3-sigma (Wright) outlier count (lines 312-318): the two criteria flag
exactly the same points. -/
theorem claim_C10_sharlie_eq_3sigma (data : List ℝ) (m s : ℝ) (hs : 0 < s) :
    sharlieCount data m s = (sigma3Res data m s).count
    ∧ ∀ x : ℝ, 3 < |x - m| / s ↔ (x < m - 3 * s ∨ m + 3 * s < x) := by
  have hiff : ∀ x : ℝ, 3 < |x - m| / s ↔ (x < m - 3 * s ∨ m + 3 * s < x) := by
    intro x
    rw [lt_div_iff hs, lt_abs]
    constructor
    · rintro (h | h)
      · right; linarith
      · left; linarith
    · rintro (h | h)
      · right; linarith
      · left; linarith
  refine ⟨?_, hiff⟩
  show sharlieCount data m s
      = (whereIdx data (fun x => decide (x < m - 3 * s ∨ m + 3 * s < x))).length
  rw [whereIdx_length]
  rw [sharlieCount, zScoresAbs, List.countP_map]
  apply List.countP_congr
  intro x _
  simp only [Function.comp_apply, if_neg (ne_of_gt hs)]
  show (decide (3 < |x - m| / s) = true) ↔ (decide (x < m - 3 * s ∨ m + 3 * s < x) = true)
  rw [decide_eq_true_eq, decide_eq_true_eq]
  exact hiff x

/-- Witness for claim C10's theorem at the sample `[0, 10]` with mean 0
and std 1. -/
theorem claim_C10_witness :
    sharlieCount [(0 : ℝ), 10] 0 1 = (sigma3Res [(0 : ℝ), 10] 0 1).count :=
  (claim_C10_sharlie_eq_3sigma [0, 10] 0 1 zero_lt_one).1
